import Mathlib

/-!
Verification of the weathrs core against its specification.

The definitions below are shallow embeddings of the Rust source:
pure functions become Lean functions, stateful code becomes explicit
state passing, `u32` arithmetic is `Nat` with `% 2^32`, fallible code
returns `Except`, and `f64` fields that are only ever compared are
embedded as `ℚ`.
-/

namespace Weathrs

/-! ## Notifications: errors, priorities and the fan-out service
(src/notifications/mod.rs, src/notifications/expo.rs) -/

/-- `NotificationError` from src/notifications/mod.rs.  `SendError` wraps a
reqwest error, embedded as its message string. -/
inductive NotificationError where
  | SendError (msg : String)
  | ServiceError (msg : String)
  | NoServicesConfigured
deriving DecidableEq, Repr

/-- `Priority` from src/notifications/mod.rs. -/
inductive Priority where
  | Min
  | Low
  | Default
  | High
  | Urgent
deriving DecidableEq, Repr

/-- Position of a priority in the abstract order Min < Low < Default < High < Urgent. -/
def Priority.rank : Priority → Nat
  | .Min => 0
  | .Low => 1
  | .Default => 2
  | .High => 3
  | .Urgent => 4

/-- `Priority::as_ntfy_priority` from src/notifications/mod.rs. -/
def Priority.as_ntfy_priority : Priority → Nat
  | .Min => 1
  | .Low => 2
  | .Default => 3
  | .High => 4
  | .Urgent => 5

/-- `Priority::as_gotify_priority` from src/notifications/mod.rs. -/
def Priority.as_gotify_priority : Priority → Nat
  | .Min => 0
  | .Low => 2
  | .Default => 5
  | .High => 7
  | .Urgent => 10

/-- `ExpoClient::convert_priority` from src/notifications/expo.rs. -/
def convert_priority : Priority → String
  | .Min | .Low => "normal"
  | .Default => "default"
  | .High | .Urgent => "high"

/-- Rank of Expo's string priority scale.  Expo accepts "default", "normal"
and "high"; "normal" is the low-urgency delivery class, "high" the
immediate one, and "default" (the per-channel default) sits between them. -/
def expoRank : String → Nat
  | "normal" => 0
  | "default" => 1
  | "high" => 2
  | _ => 3

/-- `NotificationMessage` from src/notifications/mod.rs. -/
structure NotificationMessage where
  title : String
  body : String
  priority : Priority
  tags : List String
  city : Option String
deriving DecidableEq, Repr

/-- One configured backend of `NotificationService`, embedded by the outcome
its `send` produces for the message at hand: `none` is success, `some e`
is failure with error `e`. -/
def BackendOutcome : Type := Option NotificationError
deriving instance DecidableEq for BackendOutcome

/-- `NotificationService` from src/notifications/mod.rs: an optional ntfy
backend and an optional gotify backend, each embedded by its send outcome. -/
structure NotificationService where
  ntfy : Option BackendOutcome
  gotify : Option BackendOutcome

/-- `NotificationService::is_configured`. -/
def NotificationService.is_configured (s : NotificationService) : Bool :=
  s.ntfy.isSome || s.gotify.isSome

/-- Number of configured backends, as counted by `send`'s
`[self.ntfy.is_some(), self.gotify.is_some()].iter().filter(...).count()`. -/
def NotificationService.configuredCount (s : NotificationService) : Nat :=
  (if s.ntfy.isSome then 1 else 0) + (if s.gotify.isSome then 1 else 0)

/-- The `errors` vector accumulated by `NotificationService::send`:
ntfy's error (if it is configured and fails) then gotify's. -/
def NotificationService.sendErrors (s : NotificationService) : List NotificationError :=
  (match s.ntfy with
    | some (some e) => [e]
    | _ => []) ++
  (match s.gotify with
    | some (some e) => [e]
    | _ => [])

/-- `NotificationService::send` from src/notifications/mod.rs: error out if
nothing is configured, otherwise try every configured backend, succeed if
strictly fewer errors than configured backends, else return the first error. -/
def NotificationService.send (s : NotificationService) : Except NotificationError Unit :=
  if ¬ s.is_configured then
    .error .NoServicesConfigured
  else if s.sendErrors.length < s.configuredCount then
    .ok ()
  else
    match s.sendErrors with
    | e :: _ => .error e
    | [] => .ok ()

/-- At least one configured backend's send succeeded. -/
def NotificationService.someSucceeded (s : NotificationService) : Bool :=
  s.ntfy == some none || s.gotify == some none

/-! ## ApiCallBudget (src/api_budget.rs)

The struct holds a `u32` daily limit, an atomic `u32` used-counter and an
atomic `i64` UTC-day marker.  The embedding passes the state explicitly and
takes the current UTC day as a parameter; `u32` arithmetic wraps at `2^32`. -/

/-- Two to the thirty-second power, the `u32` modulus. -/
def U32MOD : Nat := 4294967296

/-- `ApiCallBudget` from src/api_budget.rs. -/
structure ApiCallBudget where
  daily_limit : Nat
  calls_today : Nat
  current_day : Int
deriving DecidableEq, Repr

/-- `ApiCallBudget::new`. -/
def ApiCallBudget.new (daily_limit : Nat) (today : Int) : ApiCallBudget :=
  ⟨daily_limit, 0, today⟩

/-- `ApiCallBudget::maybe_reset`, sequential semantics: when the wall-clock
UTC day differs from the stored day, swap the marker and zero the counter. -/
def ApiCallBudget.maybe_reset (today : Int) (b : ApiCallBudget) : ApiCallBudget :=
  if today ≠ b.current_day then
    { b with current_day := today, calls_today := 0 }
  else
    b

/-- `ApiCallBudget::record_call`: reconcile the day, then `fetch_add(1)` on
the counter (wrapping `u32` addition) and report whether the previous value
was below the limit. -/
def ApiCallBudget.record_call (today : Int) (b : ApiCallBudget) : Bool × ApiCallBudget :=
  let b := b.maybe_reset today
  let prev := b.calls_today
  (decide (prev < b.daily_limit), { b with calls_today := (prev + 1) % U32MOD })

/-- `ApiCallBudget::remaining`: reconcile the day, then saturating
subtraction of the used count from the limit (Nat subtraction truncates). -/
def ApiCallBudget.remaining (today : Int) (b : ApiCallBudget) : Nat :=
  let b := b.maybe_reset today
  b.daily_limit - b.calls_today

/-- `ApiCallBudget::used_today`. -/
def ApiCallBudget.used_today (today : Int) (b : ApiCallBudget) : Nat :=
  let b := b.maybe_reset today
  b.calls_today

/-- The state after `k` consecutive `record_call`s on the same UTC day. -/
def ApiCallBudget.recordCalls (today : Int) (b : ApiCallBudget) : Nat → ApiCallBudget
  | 0 => b
  | k + 1 => ((b.recordCalls today k).record_call today).2

/-- The boolean returned by the `(i+1)`-th call in a same-day sequence of
`record_call`s starting from `b`. -/
def ApiCallBudget.nthCallResult (today : Int) (b : ApiCallBudget) (i : Nat) : Bool :=
  ((b.recordCalls today i).record_call today).1

/-! ## Forecast snapshot and notification policy
(src/forecast/models.rs, src/scheduler/jobs.rs, src/scheduler/service.rs) -/

/-- `LocationInfo` from src/forecast/models.rs (fields the core reads). -/
structure LocationInfo where
  city : String
  country : String
deriving DecidableEq, Repr

/-- `CurrentWeatherResponse` from src/forecast/models.rs (fields the
notification policy and message builder read). -/
structure CurrentWeatherResponse where
  temperature : ℚ
  feels_like : ℚ
  description : String
deriving DecidableEq, Repr

/-- `DailyForecastResponse` from src/forecast/models.rs (fields the
notification policy and message builder read). -/
structure DailyForecastResponse where
  summary : Option String
  temp_min : ℚ
  temp_max : ℚ
  precipitation_probability : ℚ
deriving DecidableEq, Repr

/-- `AlertResponse` from src/forecast/models.rs (fields the message builder
reads). -/
structure AlertResponse where
  event : String
deriving DecidableEq, Repr

/-- `ForecastResponse` from src/forecast/models.rs (fields the core reads). -/
structure ForecastResponse where
  location : LocationInfo
  current : Option CurrentWeatherResponse
  daily : List DailyForecastResponse
  alerts : List AlertResponse
deriving DecidableEq, Repr

/-- `NotifyConfig` from src/scheduler/jobs.rs. -/
structure NotifyConfig where
  on_run : Bool
  on_alert : Bool
  on_precipitation : Bool
  cold_threshold : Option ℚ
  heat_threshold : Option ℚ
deriving DecidableEq, Repr

/-- `should_notify_for_forecast` from src/scheduler/service.rs, with the
source's early returns rendered as nested conditionals in the same order. -/
def should_notify_for_forecast (forecast : ForecastResponse) (config : NotifyConfig) : Bool :=
  if config.on_run then true
  else if config.on_alert && !forecast.alerts.isEmpty then true
  else if config.on_precipitation
      && forecast.daily.any (fun daily => decide (daily.precipitation_probability > 1/2)) then
    true
  else
    match forecast.current with
    | some current =>
      (match config.cold_threshold with
        | some cold => decide (current.temperature < cold)
        | none => false) ||
      (match config.heat_threshold with
        | some heat => decide (current.temperature > heat)
        | none => false)
    | none => false

/-- `build_notification_message` from src/scheduler/service.rs.  The Rust
`format!("{:.1}", x)` / `format!("{:.0}", x)` float renderings are
abstracted as the parameters `fmt1` and `fmt0`; everything else is the
source's string assembly verbatim. -/
def build_notification_message (fmt1 fmt0 : ℚ → String)
    (forecast : ForecastResponse) : NotificationMessage :=
  let city := forecast.location.city
  let country := forecast.location.country
  let body :=
    (match forecast.current with
      | some current =>
        "Now: " ++ fmt1 current.temperature ++ " (feels " ++ fmt1 current.feels_like ++ ")\n"
          ++ current.description ++ "\n"
      | none => "")
  let body :=
    body ++
    (match forecast.daily.head? with
      | some today =>
        "Today: " ++ fmt0 today.temp_min ++ " - " ++ fmt0 today.temp_max ++ "\n"
          ++ (if today.precipitation_probability > 0 then
                "Rain: " ++ fmt0 (today.precipitation_probability * 100) ++ "% chance\n"
              else "")
          ++ (match today.summary with
              | some summary => summary
              | none => "")
      | none => "")
  let body :=
    if !forecast.alerts.isEmpty then
      body ++ "\n\nWEATHER ALERTS:\n"
        ++ forecast.alerts.foldl (fun acc alert => acc ++ "- " ++ alert.event ++ "\n") ""
    else body
  let priority := if !forecast.alerts.isEmpty then Priority.Urgent else Priority.Default
  let tags :=
    if !forecast.alerts.isEmpty then ["warning", "weather"] else ["sunny", "weather"]
  { title := "Weather: " ++ city ++ ", " ++ country
    body := body
    priority := priority
    tags := tags
    city := some city }

/-! ## Scheduler service: job validation and persistence
(src/scheduler/jobs.rs, src/scheduler/storage.rs, src/scheduler/service.rs)

Cron and timezone parsing are performed by external crates
(tokio_cron_scheduler and chrono_tz); they are embedded as the abstract
predicates `cronValid` and `tzValid` passed to the service operations.
`JobStorage`'s `HashMap<String, ForecastJob>` is embedded as an
association list updated in place, and the `job_uuids` schedule map as the
list of job ids that hold an active schedule handle. -/

/-- `ForecastJob` from src/scheduler/jobs.rs. -/
structure ForecastJob where
  id : String
  name : String
  city : String
  units : String
  cron : String
  timezone : String
  include_daily : Bool
  include_hourly : Bool
  enabled : Bool
  notify : NotifyConfig
deriving DecidableEq, Repr

/-- `SchedulerError` from src/scheduler/service.rs. -/
inductive SchedulerError where
  | NotFound (id : String)
  | InvalidCron (cron : String)
  | InvalidTimezone (tz : String)
  | Storage (msg : String)
  | Scheduler (msg : String)
deriving DecidableEq, Repr

/-- The mutable state of `SchedulerService`: the persisted job store and the
set of job ids currently registered with the cron engine. -/
structure SchedState where
  storage : List (String × ForecastJob)
  scheduled : List String
deriving Repr

/-- `JobStorage::get`. -/
def storageGet (storage : List (String × ForecastJob)) (id : String) : Option ForecastJob :=
  (storage.find? (fun p => p.1 = id)).map Prod.snd

/-- `JobStorage::upsert`: insert-or-replace keyed by job id. -/
def storageUpsert (storage : List (String × ForecastJob)) (job : ForecastJob) :
    List (String × ForecastJob) :=
  if storage.any (fun p => p.1 = job.id) then
    storage.map (fun p => if p.1 = job.id then (job.id, job) else p)
  else
    storage ++ [(job.id, job)]

/-- `JobStorage::exists`. -/
def storageExists (storage : List (String × ForecastJob)) (id : String) : Bool :=
  storage.any (fun p => p.1 = id)

/-- `SchedulerService::schedule_job` (internal): parse the timezone, build
the cron job, add it to the engine, and record the id→handle mapping.
Timezone parsing fails first, then cron parsing, mirroring the source order;
engine registration itself is assumed to succeed. -/
def schedule_job (cronValid tzValid : String → Bool) (st : SchedState)
    (job : ForecastJob) : Except SchedulerError SchedState :=
  if ¬ tzValid job.timezone then
    .error (.InvalidTimezone job.timezone)
  else if ¬ cronValid job.cron then
    .error (.InvalidCron job.cron)
  else
    .ok { st with scheduled := st.scheduled ++ [job.id] }

/-- `SchedulerService::create_job` from src/scheduler/service.rs: validate
the cron expression, then the timezone, then persist, then schedule when
enabled.  The resulting state is returned alongside the outcome so that the
error paths exhibit the untouched store. -/
def create_job (cronValid tzValid : String → Bool) (st : SchedState)
    (job : ForecastJob) : Except SchedulerError ForecastJob × SchedState :=
  if ¬ cronValid job.cron then
    (.error (.InvalidCron job.cron), st)
  else if ¬ tzValid job.timezone then
    (.error (.InvalidTimezone job.timezone), st)
  else
    let st := { st with storage := storageUpsert st.storage job }
    if job.enabled then
      match schedule_job cronValid tzValid st job with
      | .ok st => (.ok job, st)
      | .error e => (.error e, st)
    else
      (.ok job, st)

/-- `SchedulerService::unschedule_job` (internal): drop the id→handle
mapping when present; a missing handle is a no-op. -/
def unschedule_job (st : SchedState) (job_id : String) : SchedState :=
  { st with scheduled := st.scheduled.filter (fun id => id ≠ job_id) }

/-- `SchedulerService::update_job` from src/scheduler/service.rs: require
the job to exist, validate cron then timezone, unschedule the old handle,
persist the replacement, and reschedule when enabled. -/
def update_job (cronValid tzValid : String → Bool) (st : SchedState)
    (job : ForecastJob) : Except SchedulerError ForecastJob × SchedState :=
  if ¬ storageExists st.storage job.id then
    (.error (.NotFound job.id), st)
  else if ¬ cronValid job.cron then
    (.error (.InvalidCron job.cron), st)
  else if ¬ tzValid job.timezone then
    (.error (.InvalidTimezone job.timezone), st)
  else
    let st := unschedule_job st job.id
    let st := { st with storage := storageUpsert st.storage job }
    if job.enabled then
      match schedule_job cronValid tzValid st job with
      | .ok st => (.ok job, st)
      | .error e => (.error e, st)
    else
      (.ok job, st)

/-! ## TtlCache (src/cache.rs)

The `DashMap` is embedded as an association list whose keys are unique, and
`Instant` as a `Nat` instant passed to each operation. -/

/-- `CacheEntry` from src/cache.rs. -/
structure CacheEntry (V : Type) where
  value : V
  expires_at : Nat
deriving Repr, DecidableEq

/-- `TtlCache` from src/cache.rs: the map contents plus the fixed TTL. -/
structure TtlCache (K V : Type) where
  data : List (K × CacheEntry V)
  ttl : Nat
deriving Repr

/-- `DashMap::get` on the embedded map. -/
def TtlCache.lookup [DecidableEq K] (c : TtlCache K V) (key : K) : Option (CacheEntry V) :=
  (c.data.find? (fun p => p.1 = key)).map Prod.snd

/-- `TtlCache::get` from src/cache.rs: a present entry with
`expires_at > now` is a hit; a present expired entry is removed and is a
miss; an absent key is a miss.  Returns the resulting cache as well. -/
def TtlCache.get [DecidableEq K] (now : Nat) (c : TtlCache K V) (key : K) :
    Option V × TtlCache K V :=
  match c.lookup key with
  | none => (none, c)
  | some entry =>
    if entry.expires_at > now then
      (some entry.value, c)
    else
      (none, { c with data := c.data.eraseP (fun p => decide (p.1 = key)) })

/-- `TtlCache::insert` from src/cache.rs: always overwrite, expiry is
`now + ttl`. -/
def TtlCache.insert [DecidableEq K] (now : Nat) (c : TtlCache K V) (key : K) (value : V) :
    TtlCache K V :=
  { c with data := c.data.eraseP (fun p => decide (p.1 = key)) ++ [(key, ⟨value, now + c.ttl⟩)] }

/-- `TtlCache::cleanup` from src/cache.rs: retain exactly the entries with
`expires_at > now`. -/
def TtlCache.cleanup (now : Nat) (c : TtlCache K V) : TtlCache K V :=
  { c with data := c.data.filter (fun p => p.2.expires_at > now) }

/-- `TtlCache::len` from src/cache.rs. -/
def TtlCache.len (c : TtlCache K V) : Nat :=
  c.data.length

/-! ## History repository (src/db/history_repo.rs)

`weather_history` is embedded as a list of rows.  The table's
`UNIQUE (city, timestamp, units)` natural key is declared by
migrations/002_create_history_table.sql, which is referenced from
src/db/mod.rs but whose file is not under src/. -/

/-- `HistoryRecord` from src/db/history_repo.rs. -/
structure HistoryRecord where
  city : String
  lat : ℚ
  lon : ℚ
  timestamp : Int
  temperature : ℚ
  feels_like : ℚ
  humidity : Int
  pressure : Int
  wind_speed : ℚ
  wind_direction : Option Int
  clouds : Option Int
  visibility : Option Int
  description : Option String
  icon : Option String
  rain_1h : Option ℚ
  snow_1h : Option ℚ
  units : String
  fetched_at : Int
deriving DecidableEq, Repr

/-- The (city, timestamp, units) natural key of a history record. -/
def HistoryRecord.key (r : HistoryRecord) : String × Int × String :=
  (r.city, r.timestamp, r.units)

/-- Whether the table already holds a row with `r`'s natural key. -/
def hasKey (table : List HistoryRecord) (r : HistoryRecord) : Bool :=
  table.any (fun s => s.key = r.key)

/-- Modelled from the spec: one `INSERT OR IGNORE INTO weather_history`
statement.  The migration declaring the UNIQUE (city, timestamp, units)
constraint (migrations/002_create_history_table.sql) is not under src/, so
its conflict rule is taken from the spec's natural-key invariant: a row
whose key is already present is ignored, otherwise the row is appended and
one row is affected. -/
def insertOne (table : List HistoryRecord) (r : HistoryRecord) :
    List HistoryRecord × Bool :=
  if hasKey table r then (table, false) else (table ++ [r], true)

/-- `SqliteHistoryRepository::insert_batch` from src/db/history_repo.rs:
insert each record in order, counting those whose statement affected a row. -/
def insert_batch (table : List HistoryRecord) (records : List HistoryRecord) :
    List HistoryRecord × Nat :=
  records.foldl
    (fun acc r =>
      let (table, affected) := insertOne acc.1 r
      (table, if affected then acc.2 + 1 else acc.2))
    (table, 0)

/-! ## Backfill runner (src/backfill/runner.rs)

`IndexSet` insertion is embedded as append-if-absent on a list, which is
exactly its insertion-order/dedup behaviour.  The forecast/history
collaborators the runner calls are embedded as oracles in `BackfillEnv`;
`HistoryService::fetch_day_if_budget` and the `geocode`/`get_missing_days`
wrappers it calls are used by the runner but are not under src/, so they
are modelled from the spec (see `fetch_day_if_budget`). -/

/-- `Device` from src/devices/models.rs (fields the backfill runner reads). -/
structure Device where
  enabled : Bool
  cities : List String
deriving Repr

/-- `IndexSet::insert`: append the element unless it is already present. -/
def insertIdem (l : List String) (x : String) : List String :=
  if x ∈ l then l else l ++ [x]

/-- `build_city_list` from src/backfill/runner.rs: fold the four priority
groups, in order, into an insertion-ordered set. -/
def build_city_list (devices : List Device) (jobs : List ForecastJob)
    (fallback : List String) : List String :=
  let set : List String := []
  let set := (devices.filter (·.enabled)).foldl
    (fun set device =>
      match device.cities.head? with
      | some first => insertIdem set first
      | none => set)
    set
  let set := (devices.filter (·.enabled)).foldl
    (fun set device => device.cities.foldl insertIdem set)
    set
  let set := (jobs.filter (·.enabled)).foldl
    (fun set job => insertIdem set job.city)
    set
  fallback.foldl insertIdem set

/-- The spec's priority order before deduplication: first city of each
enabled device, then all cities of enabled devices, then cities of enabled
jobs, then the fallback list. -/
def priorityCityList (devices : List Device) (jobs : List ForecastJob)
    (fallback : List String) : List String :=
  (devices.filter (·.enabled)).filterMap (·.cities.head?)
    ++ ((devices.filter (·.enabled)).map (·.cities)).flatten
    ++ (jobs.filter (·.enabled)).map (·.city)
    ++ fallback

/-- Deduplication by first occurrence, given the elements already seen. -/
def dedupKeepFirst (seen : List String) : List String → List String
  | [] => []
  | x :: xs =>
    if x ∈ seen then dedupKeepFirst seen xs
    else x :: dedupKeepFirst (seen ++ [x]) xs

/-- The collaborators the backfill runner calls, embedded as oracles:
`geocode` resolves a configured city to its canonical name (`none` is a
geocoding failure), `missingDays` lists a resolved city's missing day
timestamps (`none` is a lookup failure), and `fetchDay` is the metered
upstream fetch, returning a record count or a per-day error message. -/
structure BackfillEnv where
  geocode : String → Option String
  missingDays : String → Option (List Int)
  fetchDay : String → Int → Except String Nat

/-- Modelled from the spec: `HistoryService::fetch_day_if_budget`, called by
the runner (src/backfill/runner.rs line 129) but absent from src/.  Per the
spec it calls `RateBudget.record_call()` before each upstream fetch and
signals budget exhaustion (`none`) distinctly from a fetch error: when the
recorded call is within budget, the day is fetched and its record count
returned; otherwise no fetch happens and exhaustion is reported. -/
def fetch_day_if_budget (env : BackfillEnv) (today : Int) (b : ApiCallBudget)
    (city : String) (day : Int) : Except String (Option Nat) × ApiCallBudget :=
  let (ok, b) := b.record_call today
  if ok then
    match env.fetchDay city day with
    | .ok count => (.ok (some count), b)
    | .error e => (.error e, b)
  else
    (.ok none, b)

/-- The inner per-city loop of `run_backfill`: attempt each missing day in
order, stopping at budget exhaustion and skipping per-day errors.  Returns
the list of days on which `fetch_day_if_budget` was invoked, paired with
whether that invocation performed a within-budget fetch, and the budget. -/
def runCity (env : BackfillEnv) (today : Int) (b : ApiCallBudget) (city : String) :
    List Int → List (Int × Bool) × ApiCallBudget
  | [] => ([], b)
  | day :: rest =>
    match fetch_day_if_budget env today b city day with
    | (.ok none, b) => ([(day, false)], b)
    | (.ok (some _), b) =>
      let (attempts, b) := runCity env today b city rest
      ((day, true) :: attempts, b)
    | (.error _, b) =>
      let (attempts, b) := runCity env today b city rest
      ((day, true) :: attempts, b)

/-- The city loop of `run_backfill` from src/backfill/runner.rs: stop the
whole run when the budget is exhausted at a city boundary; skip a city on
geocoding failure, missing-day lookup failure, or an empty missing list;
otherwise run the inner day loop.  Returns the cities the loop body
processed in order, every `fetch_day_if_budget` invocation as
(resolved city, day, within-budget), and the final budget. -/
def runBackfill (env : BackfillEnv) (today : Int) (b : ApiCallBudget) :
    List String → List String × List (String × Int × Bool) × ApiCallBudget
  | [] => ([], [], b)
  | city :: rest =>
    if b.remaining today = 0 then
      ([], [], b)
    else
      match env.geocode city with
      | none =>
        let (visited, attempts, b) := runBackfill env today b rest
        (city :: visited, attempts, b)
      | some cityName =>
        match env.missingDays cityName with
        | none =>
          let (visited, attempts, b) := runBackfill env today b rest
          (city :: visited, attempts, b)
        | some [] =>
          let (visited, attempts, b) := runBackfill env today b rest
          (city :: visited, attempts, b)
        | some (day :: days) =>
          let (cityAttempts, b) := runCity env today b cityName (day :: days)
          let (visited, attempts, b2) := runBackfill env today b rest
          (city :: visited, cityAttempts.map (fun a => (cityName, a)) ++ attempts, b2)

/-! ## Sample inputs used by the witness theorems -/

/-- A sample notification config (all triggers off). -/
def sampleNotify : NotifyConfig :=
  ⟨false, false, false, none, none⟩

/-- A sample job whose cron expression is the unparseable "not-a-cron". -/
def sampleBadCronJob : ForecastJob :=
  ⟨"job-1", "Morning", "Chicago", "metric", "not-a-cron", "America/Chicago",
    true, false, true, sampleNotify⟩

/-! ## Spec-side message structure (for comparison with
`build_notification_message`) -/

/-- The spec's current-conditions section of the notification body. -/
def specCurrentSection (fmt1 : ℚ → String) (f : ForecastResponse) : String :=
  match f.current with
  | some current =>
    "Now: " ++ fmt1 current.temperature ++ " (feels " ++ fmt1 current.feels_like ++ ")\n"
      ++ current.description ++ "\n"
  | none => ""

/-- The spec's today's-min/max, precipitation-when-positive, and free-text
summary section of the notification body. -/
def specTodaySection (fmt0 : ℚ → String) (f : ForecastResponse) : String :=
  match f.daily.head? with
  | some today =>
    "Today: " ++ fmt0 today.temp_min ++ " - " ++ fmt0 today.temp_max ++ "\n"
      ++ (if today.precipitation_probability > 0 then
            "Rain: " ++ fmt0 (today.precipitation_probability * 100) ++ "% chance\n"
          else "")
      ++ (match today.summary with
          | some summary => summary
          | none => "")
  | none => ""

/-- One "- <event>" line per alert. -/
def alertLines : List AlertResponse → String
  | [] => ""
  | alert :: rest => "- " ++ alert.event ++ "\n" ++ alertLines rest

/-- The spec's alert section, appended only when alerts are present. -/
def specAlertSection (f : ForecastResponse) : String :=
  if f.alerts = [] then "" else "\n\nWEATHER ALERTS:\n" ++ alertLines f.alerts

/-- A sample forecast snapshot for Chicago with no current weather, no
daily entries and no alerts. -/
def sampleForecast : ForecastResponse :=
  ⟨⟨"Chicago", "US"⟩, none, [], []⟩

/-- A sample history record for Chicago at timestamp 1700000000, metric. -/
def sampleRecord : HistoryRecord :=
  ⟨"Chicago", 418781/10000, -876298/10000, 1700000000, 41/2, 19, 65, 1013,
    11/2, some 180, some 40, some 10000, some "clear sky", some "01d",
    none, none, "metric", 1700000000⟩

/-- A sample backfill environment: geocoding resolves every city to itself,
every city is missing exactly the day at timestamp 0, and each fetch
succeeds with 24 records. -/
def sampleEnv : BackfillEnv :=
  ⟨fun city => some city, fun _ => some [0], fun _ _ => .ok 24⟩

/-- Two enabled sample devices with home cities "a" and "b". -/
def sampleDevices : List Device :=
  [⟨true, ["a"]⟩, ⟨true, ["b"]⟩]

/-! ## Theorems -/

/-- C9: every per-backend priority translation is a total function landing in
the backend's native scale (ntfy 1–5, gotify 0–10, Expo's three-string
scale) with no unsupported case, and each is order-preserving: `p ≤ q` in
the abstract order implies the translations are ordered the same way in the
backend's native order. -/
theorem priority_translations_total_and_monotone :
    (∀ p : Priority,
      1 ≤ p.as_ntfy_priority ∧ p.as_ntfy_priority ≤ 5 ∧
      p.as_gotify_priority ≤ 10 ∧
      (convert_priority p = "normal" ∨ convert_priority p = "default" ∨
        convert_priority p = "high")) ∧
    (∀ p q : Priority, p.rank ≤ q.rank →
      p.as_ntfy_priority ≤ q.as_ntfy_priority ∧
      p.as_gotify_priority ≤ q.as_gotify_priority ∧
      expoRank (convert_priority p) ≤ expoRank (convert_priority q)) := by
  constructor
  · intro p
    cases p <;> decide
  · intro p q
    cases p <;> cases q <;> decide

/-- Witness for C9 at a concrete ordered pair of priorities. -/
theorem priority_translations_witness :
    Priority.rank .Low ≤ Priority.rank .Urgent ∧
    (Priority.as_ntfy_priority .Low ≤ Priority.as_ntfy_priority .Urgent ∧
      Priority.as_gotify_priority .Low ≤ Priority.as_gotify_priority .Urgent ∧
      expoRank (convert_priority .Low) ≤ expoRank (convert_priority .Urgent)) :=
  ⟨by decide, priority_translations_total_and_monotone.2 .Low .Urgent (by decide)⟩

/-- C1: with no backend configured, `send` fails with the distinct
`NoServicesConfigured` error; with at least one backend configured, `send`
succeeds exactly when at least one configured backend's send succeeded, and
when it fails the reported error is one of the underlying backend errors
(so every configured backend failed). -/
theorem notification_send_aggregation (s : NotificationService) :
    (s.is_configured = false → s.send = .error .NoServicesConfigured) ∧
    (s.is_configured = true → (s.send = .ok () ↔ s.someSucceeded = true)) ∧
    (∀ e, s.is_configured = true → s.send = .error e →
      s.someSucceeded = false ∧ e ∈ s.sendErrors) := by
  rcases s with ⟨ntfy, gotify⟩
  rcases ntfy with _ | (_ | e1) <;> rcases gotify with _ | (_ | e2) <;>
    simp [NotificationService.send, NotificationService.is_configured,
      NotificationService.sendErrors, NotificationService.configuredCount,
      NotificationService.someSucceeded]

/-- Witness for C1: a service whose ntfy backend fails and whose gotify
backend succeeds is configured and its `send` reports overall success. -/
theorem notification_send_witness :
    (NotificationService.mk (some (some (.ServiceError "boom"))) (some none)).is_configured
        = true ∧
    (NotificationService.mk (some (some (.ServiceError "boom"))) (some none)).send
        = .ok () :=
  ⟨rfl,
    ((notification_send_aggregation
        (NotificationService.mk (some (some (.ServiceError "boom"))) (some none))).2.1
      rfl).mpr rfl⟩

/-- Same-day closed form: starting from a fresh budget, `k` record_calls
leave the limit and day unchanged and the wrapped u32 counter at
`k % 2^32`. -/
theorem recordCalls_closed_form (L : Nat) (d : Int) (k : Nat) :
    ApiCallBudget.recordCalls d (ApiCallBudget.new L d) k
      = ⟨L, k % U32MOD, d⟩ := by
  induction k with
  | zero => simp [ApiCallBudget.recordCalls, ApiCallBudget.new, Nat.zero_mod]
  | succ k ih =>
    simp only [ApiCallBudget.recordCalls, ih, ApiCallBudget.record_call,
      ApiCallBudget.maybe_reset]
    simp [Nat.mod_add_mod]

/-- C2 counterexample: with daily limit 1, after `2^32` same-day calls
(at least the limit) the wrapped u32 counter reads 0, so `remaining()`
returns 1, not 0. -/
theorem budget_remaining_wrap_counterexample :
    1 ≤ U32MOD ∧
    ApiCallBudget.remaining 0
      (ApiCallBudget.recordCalls 0 (ApiCallBudget.new 1 0) U32MOD) = 1 := by
  constructor
  · norm_num [U32MOD]
  · rw [recordCalls_closed_form]
    simp [ApiCallBudget.remaining, ApiCallBudget.maybe_reset, Nat.mod_self]

/-- C2 (amended): for a limit `L < 2^32` on a fresh budget within a single
UTC day, each of the first `L` calls to record_call returns true and the
`(L+1)`-th returns false; every call advances the used count by one modulo
`2^32` (so `used_today` after `k` calls is `k % 2^32`); `remaining` after
`k` calls is the saturating difference `L - (k % 2^32)` — hence 0 for every
`k` with `L ≤ k < 2^32`, and never negative. -/
theorem budget_record_and_remaining (L : Nat) (d : Int) (hL : L < U32MOD) :
    (∀ i, i < L →
      ApiCallBudget.nthCallResult d (ApiCallBudget.new L d) i = true) ∧
    ApiCallBudget.nthCallResult d (ApiCallBudget.new L d) L = false ∧
    (∀ k, ApiCallBudget.used_today d
      (ApiCallBudget.recordCalls d (ApiCallBudget.new L d) k) = k % U32MOD) ∧
    (∀ k, ApiCallBudget.remaining d
      (ApiCallBudget.recordCalls d (ApiCallBudget.new L d) k) = L - k % U32MOD) ∧
    (∀ k, L ≤ k → k < U32MOD →
      ApiCallBudget.remaining d
        (ApiCallBudget.recordCalls d (ApiCallBudget.new L d) k) = 0) := by
  refine ⟨?_, ?_, ?_, ?_, ?_⟩
  · intro i hi
    simp [ApiCallBudget.nthCallResult, recordCalls_closed_form,
      ApiCallBudget.record_call, ApiCallBudget.maybe_reset,
      Nat.mod_eq_of_lt (lt_trans hi hL), hi]
  · simp [ApiCallBudget.nthCallResult, recordCalls_closed_form,
      ApiCallBudget.record_call, ApiCallBudget.maybe_reset,
      Nat.mod_eq_of_lt hL]
  · intro k
    simp [recordCalls_closed_form, ApiCallBudget.used_today,
      ApiCallBudget.maybe_reset]
  · intro k
    simp [recordCalls_closed_form, ApiCallBudget.remaining,
      ApiCallBudget.maybe_reset]
  · intro k hk hk32
    simp [recordCalls_closed_form, ApiCallBudget.remaining,
      ApiCallBudget.maybe_reset, Nat.mod_eq_of_lt hk32,
      Nat.sub_eq_zero_of_le hk]

/-- Witness for C2's amended theorem at limit 2 on day 0. -/
theorem budget_record_and_remaining_witness :
    2 < U32MOD ∧
    (0 < 2 ∧ ApiCallBudget.nthCallResult 0 (ApiCallBudget.new 2 0) 0 = true) ∧
    ApiCallBudget.nthCallResult 0 (ApiCallBudget.new 2 0) 2 = false ∧
    (2 ≤ 2 ∧ 2 < U32MOD ∧
      ApiCallBudget.remaining 0
        (ApiCallBudget.recordCalls 0 (ApiCallBudget.new 2 0) 2) = 0) :=
  ⟨by norm_num [U32MOD],
    ⟨by norm_num,
      (budget_record_and_remaining 2 0 (by norm_num [U32MOD])).1 0 (by norm_num)⟩,
    (budget_record_and_remaining 2 0 (by norm_num [U32MOD])).2.1,
    le_rfl, by norm_num [U32MOD],
    (budget_record_and_remaining 2 0 (by norm_num [U32MOD])).2.2.2.2 2 le_rfl
      (by norm_num [U32MOD])⟩

/-- C3: a job whose cron expression fails to parse is rejected by
`create_job` (and by `update_job` when the id exists) with `InvalidCron`,
and one whose cron parses but whose timezone does not is rejected with
`InvalidTimezone`; in every such case the returned state is exactly the
input state — the job store and the schedule registrations are unchanged,
so a subsequent `get` observes what it observed before. -/
theorem job_validation_rejects_and_preserves_store (cv tv : String → Bool)
    (st : SchedState) (job : ForecastJob) :
    (cv job.cron = false →
      create_job cv tv st job = (.error (.InvalidCron job.cron), st) ∧
      (storageExists st.storage job.id = true →
        update_job cv tv st job = (.error (.InvalidCron job.cron), st))) ∧
    (cv job.cron = true → tv job.timezone = false →
      create_job cv tv st job = (.error (.InvalidTimezone job.timezone), st) ∧
      (storageExists st.storage job.id = true →
        update_job cv tv st job = (.error (.InvalidTimezone job.timezone), st))) ∧
    (cv job.cron = false ∨ tv job.timezone = false →
      storageGet (create_job cv tv st job).2.storage job.id
          = storageGet st.storage job.id ∧
      (create_job cv tv st job).2.scheduled = st.scheduled) := by
  refine ⟨?_, ?_, ?_⟩
  · intro h
    refine ⟨by simp [create_job, h], ?_⟩
    intro hex
    simp [update_job, h, hex]
  · intro hc ht
    refine ⟨by simp [create_job, hc, ht], ?_⟩
    intro hex
    simp [update_job, hc, ht, hex]
  · intro h
    cases hcv : cv job.cron with
    | false => simp [create_job, hcv]
    | true =>
      have ht : tv job.timezone = false := by
        rcases h with h | h
        · rw [hcv] at h; cases h
        · exact h
      simp [create_job, hcv, ht]

/-- Witness for C3: creating a job with cron "not-a-cron" against a parser
that rejects everything fails with `InvalidCron` and leaves the empty store
empty. -/
theorem job_validation_witness :
    (fun _ : String => false) sampleBadCronJob.cron = false ∧
    create_job (fun _ => false) (fun _ => true) ⟨[], []⟩ sampleBadCronJob
      = (.error (.InvalidCron sampleBadCronJob.cron), ⟨[], []⟩) :=
  ⟨rfl,
    ((job_validation_rejects_and_preserves_store (fun _ => false) (fun _ => true)
      ⟨[], []⟩ sampleBadCronJob).1 rfl).1⟩

/-- C7: in a `TtlCache`, `get` on a present entry with `expires_at > now`
returns its value and leaves the cache unchanged; `get` on a present
expired entry is a miss that removes the entry, so `len` decreases by one;
`get` on an absent key is a miss that changes nothing; and `cleanup`
removes exactly the expired entries, keeping every unexpired one. -/
theorem ttlcache_get_cleanup {K V : Type} [DecidableEq K]
    (now : Nat) (c : TtlCache K V) (key : K) :
    (∀ e : CacheEntry V, c.lookup key = some e → now < e.expires_at →
      (TtlCache.get now c key).1 = some e.value ∧ (TtlCache.get now c key).2 = c) ∧
    (∀ e : CacheEntry V, c.lookup key = some e → e.expires_at ≤ now →
      (TtlCache.get now c key).1 = none ∧
      (TtlCache.get now c key).2.len = c.len - 1) ∧
    (c.lookup key = none → TtlCache.get now c key = (none, c)) ∧
    (∀ kv : K × CacheEntry V,
      kv ∈ (TtlCache.cleanup now c).data ↔ kv ∈ c.data ∧ now < kv.2.expires_at) := by
  refine ⟨?_, ?_, ?_, ?_⟩
  · intro e he hlt
    simp [TtlCache.get, he, hlt]
  · intro e he hle
    have hnot : ¬ e.expires_at > now := not_lt.mpr hle
    refine ⟨by simp [TtlCache.get, he, hnot], ?_⟩
    have hfind : ∃ p : K × CacheEntry V,
        c.data.find? (fun p => p.1 = key) = some p := by
      rcases Option.map_eq_some'.mp he with ⟨p, hp, _⟩
      exact ⟨p, hp⟩
    rcases hfind with ⟨p, hp⟩
    have hmem : p ∈ c.data := List.mem_of_find?_eq_some hp
    have hpred : (fun q : K × CacheEntry V => decide (q.1 = key)) p = true := by
      simpa using List.find?_some hp
    simp only [TtlCache.get, he, hnot, if_false, TtlCache.len]
    simpa using List.length_eraseP_of_mem hmem hpred
  · intro he
    simp [TtlCache.get, he]
  · intro kv
    simp [TtlCache.cleanup, List.mem_filter]

/-- Witness for C7 on a one-entry cache: the entry expired at instant 5, so
at instant 7 the read misses and the length drops from 1 to 0. -/
theorem ttlcache_get_cleanup_witness :
    (TtlCache.mk [(1, CacheEntry.mk 10 5)] 100 : TtlCache Nat Nat).lookup 1
        = some (CacheEntry.mk 10 5) ∧
    (5 : Nat) ≤ 7 ∧
    (TtlCache.get 7 (TtlCache.mk [(1, CacheEntry.mk 10 5)] 100 : TtlCache Nat Nat) 1).1
        = none ∧
    (TtlCache.get 7 (TtlCache.mk [(1, CacheEntry.mk 10 5)] 100 : TtlCache Nat Nat) 1).2.len
        = (TtlCache.mk [(1, CacheEntry.mk 10 5)] 100 : TtlCache Nat Nat).len - 1 := by
  refine ⟨by decide, by norm_num, ?_⟩
  exact (ttlcache_get_cleanup 7 (TtlCache.mk [(1, CacheEntry.mk 10 5)] 100) 1).2.1
    (CacheEntry.mk 10 5) (by decide) (by norm_num)

/-- C5: `should_notify_for_forecast` returns true exactly when some trigger
predicate holds — `on_run`; or `on_alert` with a non-empty alert list; or
`on_precipitation` with some daily entry's precipitation probability
strictly above 0.5; or current weather present with temperature strictly
below a configured cold threshold or strictly above a configured heat
threshold.  In particular, without current weather the temperature
predicates never fire. -/
theorem should_notify_iff (f : ForecastResponse) (c : NotifyConfig) :
    should_notify_for_forecast f c = true ↔
      (c.on_run = true ∨
        (c.on_alert = true ∧ f.alerts ≠ []) ∨
        (c.on_precipitation = true ∧
          ∃ d ∈ f.daily, d.precipitation_probability > 1/2) ∨
        (∃ cur, f.current = some cur ∧
          ((∃ t, c.cold_threshold = some t ∧ cur.temperature < t) ∨
            (∃ t, c.heat_threshold = some t ∧ cur.temperature > t)))) := by
  rcases c with ⟨onr, ona, onp, ct, ht⟩
  rcases f with ⟨loc, cur, daily, alerts⟩
  cases onr <;> cases ona <;> cases onp <;>
    rcases cur with _ | cur <;> rcases ct with _ | cold <;> rcases ht with _ | heat <;>
    simp [should_notify_for_forecast, List.any_eq_true, List.isEmpty_iff, or_comm]

/-- The alert loop of `build_notification_message` appends one line per
alert to the accumulator. -/
theorem foldl_alert_lines (alerts : List AlertResponse) :
    ∀ acc : String,
      alerts.foldl (fun acc alert => acc ++ ("- " ++ (alert.event ++ "\n"))) acc
        = acc ++ alertLines alerts := by
  induction alerts with
  | nil => intro acc; simp [alertLines]
  | cons a as ih =>
    intro acc
    rw [List.foldl_cons, ih]
    simp [alertLines, String.append_assoc]

/-- C6 counterexample: at a concrete snapshot for Chicago, US the rendered
title is "Weather: Chicago, US", not "Chicago, US" as the claim states. -/
theorem build_message_title_counterexample :
    (build_notification_message (fun _ => "") (fun _ => "") sampleForecast).title
        = "Weather: Chicago, US" ∧
    (build_notification_message (fun _ => "") (fun _ => "") sampleForecast).title
        ≠ "Chicago, US" :=
  ⟨rfl, by decide⟩

/-- C6 (amended): the rendered message's title is "Weather: <city>,
<country>"; the body is the concatenation of the current-conditions
section, today's min/max with the precipitation probability when it is
strictly positive and the free-text summary, and — when the alert list is
non-empty — an appended alert section; with alerts the priority is Urgent
and the tags are exactly ["warning", "weather"], otherwise the priority is
Default and the tags are exactly ["sunny", "weather"]. -/
theorem build_message_structure (fmt1 fmt0 : ℚ → String) (f : ForecastResponse) :
    build_notification_message fmt1 fmt0 f =
      { title := "Weather: " ++ f.location.city ++ ", " ++ f.location.country
        body := specCurrentSection fmt1 f ++ specTodaySection fmt0 f ++ specAlertSection f
        priority := if f.alerts = [] then .Default else .Urgent
        tags := if f.alerts = [] then ["sunny", "weather"] else ["warning", "weather"]
        city := some f.location.city } := by
  rcases f with ⟨loc, cur, daily, alerts⟩
  unfold build_notification_message specCurrentSection specTodaySection specAlertSection
  cases alerts with
  | nil => simp
  | cons a as =>
    simp [foldl_alert_lines, String.append_assoc, alertLines]

/-- A key absent from the table stays absent from its key list. -/
theorem hasKey_false_not_mem (table : List HistoryRecord) (r : HistoryRecord)
    (h : hasKey table r = false) : r.key ∉ table.map HistoryRecord.key := by
  intro hmem
  rcases List.mem_map.mp hmem with ⟨s, hs, hkey⟩
  have : hasKey table r = true := by
    simp only [hasKey, List.any_eq_true]
    exact ⟨s, hs, by simp [hkey]⟩
  simp [this] at h

/-- Unfolding of the `insert_batch` fold: the resulting table is the input
table followed by the freshly inserted rows, the count is the number of
fresh rows, and key-uniqueness is preserved. -/
theorem insert_batch_fold (records : List HistoryRecord) :
    ∀ (table : List HistoryRecord) (n : Nat),
      ∃ fresh : List HistoryRecord,
        records.foldl
            (fun acc r =>
              let (table, affected) := insertOne acc.1 r
              (table, if affected then acc.2 + 1 else acc.2))
            (table, n)
          = (table ++ fresh, n + fresh.length) ∧
        ((table.map HistoryRecord.key).Nodup →
          ((table ++ fresh).map HistoryRecord.key).Nodup) := by
  induction records with
  | nil =>
    intro table n
    exact ⟨[], by simp, by simp⟩
  | cons r rs ih =>
    intro table n
    by_cases h : hasKey table r = true
    · rcases ih table n with ⟨fresh, heq, hnodup⟩
      refine ⟨fresh, ?_, hnodup⟩
      simpa [insertOne, h] using heq
    · have h' : hasKey table r = false := by
        cases hv : hasKey table r
        · rfl
        · exact absurd hv h
      rcases ih (table ++ [r]) (n + 1) with ⟨fresh, heq, hnodup⟩
      refine ⟨r :: fresh, ?_, ?_⟩
      · rw [List.foldl_cons]
        convert heq using 2
        · simp [insertOne, h']
        · simp [List.append_assoc]
        · simp [List.length_cons]
          omega
      · intro hn
        have hmid : ((table ++ [r]).map HistoryRecord.key).Nodup := by
          have hr : r.key ∉ table.map HistoryRecord.key := hasKey_false_not_mem table r h'
          simp only [List.map_append, List.map_cons, List.map_nil]
          rw [List.nodup_append]
          exact ⟨hn, List.nodup_singleton _, by simpa [List.Disjoint] using hr⟩
        have := hnodup hmid
        simpa [List.append_assoc] using this

/-- C8: `insert_batch` preserves uniqueness of the (city, timestamp, units)
natural key; rows already stored are never overwritten (the input table is
an unchanged initial segment of the result); the returned count is exactly
the number of newly inserted rows; a single insert of an already-present
key affects nothing and reports 0; and inserting the same fresh record
twice inserts it once and reports 1. -/
theorem insert_batch_natural_key (table records : List HistoryRecord) :
    (∃ fresh, (insert_batch table records).1 = table ++ fresh ∧
      (insert_batch table records).2 = fresh.length) ∧
    (insert_batch table records).2
        = (insert_batch table records).1.length - table.length ∧
    ((table.map HistoryRecord.key).Nodup →
      ((insert_batch table records).1.map HistoryRecord.key).Nodup) ∧
    (∀ r, hasKey table r = true → insert_batch table [r] = (table, 0)) ∧
    (∀ r, hasKey table r = false →
      insert_batch table [r, r] = (table ++ [r], 1)) := by
  rcases insert_batch_fold records table 0 with ⟨fresh, heq, hnodup⟩
  have hmain : insert_batch table records = (table ++ fresh, fresh.length) := by
    simpa [insert_batch] using heq
  refine ⟨⟨fresh, by simp [hmain], by simp [hmain]⟩, ?_, ?_, ?_, ?_⟩
  · simp [hmain]
  · intro hn
    rw [hmain]
    exact hnodup hn
  · intro r h
    simp [insert_batch, insertOne, h]
  · intro r h
    have h2 : hasKey (table ++ [r]) r = true := by
      simp [hasKey, List.any_append]
    simp [insert_batch, insertOne, h, h2]

/-- Witness for C8: inserting the sample record twice into an empty table
inserts once reporting 1, and re-inserting it afterwards reports 0. -/
theorem insert_batch_natural_key_witness :
    hasKey [] sampleRecord = false ∧
    insert_batch [] [sampleRecord, sampleRecord] = ([sampleRecord], 1) ∧
    hasKey [sampleRecord] sampleRecord = true ∧
    insert_batch [sampleRecord] [sampleRecord] = ([sampleRecord], 0) :=
  ⟨rfl,
    by
      have := (insert_batch_natural_key [] [sampleRecord, sampleRecord]).2.2.2.2
        sampleRecord rfl
      simpa using this,
    by simp [hasKey],
    (insert_batch_natural_key [sampleRecord] [sampleRecord]).2.2.2.1
      sampleRecord (by simp [hasKey])⟩

/-- Folding `IndexSet` insertion over a list appends exactly the elements
not yet seen, in first-occurrence order. -/
theorem foldl_insertIdem :
    ∀ (l seen : List String), l.foldl insertIdem seen = seen ++ dedupKeepFirst seen l := by
  intro l
  induction l with
  | nil => intro seen; simp [dedupKeepFirst]
  | cons x xs ih =>
    intro seen
    by_cases hx : x ∈ seen
    · rw [List.foldl_cons]
      simp only [insertIdem, if_pos hx]
      rw [ih]
      simp [dedupKeepFirst, hx]
    · rw [List.foldl_cons]
      simp only [insertIdem, if_neg hx]
      rw [ih]
      simp [dedupKeepFirst, hx, List.append_assoc]

/-- The first fold of `build_city_list` inserts each enabled device's first
city: it is the fold of plain insertion over those first cities. -/
theorem foldl_head_cities :
    ∀ (ds : List Device) (seen : List String),
      ds.foldl
          (fun set device =>
            match device.cities.head? with
            | some first => insertIdem set first
            | none => set)
          seen
        = (ds.filterMap (·.cities.head?)).foldl insertIdem seen := by
  intro ds
  induction ds with
  | nil => intro seen; simp
  | cons d ds ih =>
    intro seen
    cases hd : d.cities.head? with
    | none => simp [List.filterMap_cons, hd, ih]
    | some c => simp [List.filterMap_cons, hd, ih]

/-- C4 part 1: `build_city_list` produces exactly the spec's priority
order — first cities of enabled devices, then all enabled devices' cities,
then enabled jobs' cities, then the fallback list — deduplicated by first
occurrence. -/
theorem build_city_list_eq_spec_order (devices : List Device)
    (jobs : List ForecastJob) (fallback : List String) :
    build_city_list devices jobs fallback
      = dedupKeepFirst [] (priorityCityList devices jobs fallback) := by
  simp only [build_city_list, priorityCityList]
  rw [foldl_head_cities]
  rw [show ∀ seen, (devices.filter (·.enabled)).foldl
        (fun set device => device.cities.foldl insertIdem set) seen
      = ((devices.filter (·.enabled)).map (·.cities)).flatten.foldl insertIdem seen from
    fun seen => by rw [List.foldl_flatten, List.foldl_map]]
  rw [show ∀ seen, (jobs.filter (·.enabled)).foldl
        (fun set job => insertIdem set job.city) seen
      = ((jobs.filter (·.enabled)).map (·.city)).foldl insertIdem seen from
    fun seen => by rw [List.foldl_map]]
  rw [← List.foldl_append, ← List.foldl_append, ← List.foldl_append]
  rw [foldl_insertIdem]
  simp [List.append_assoc]

/-- When the daily budget is already exhausted at the head of the city
loop, the whole run stops at once: nothing is visited, nothing is fetched,
the budget is untouched. -/
theorem runBackfill_stops_when_exhausted (env : BackfillEnv) (today : Int)
    (b : ApiCallBudget) (cities : List String) (h : b.remaining today = 0) :
    runBackfill env today b cities = ([], [], b) := by
  cases cities with
  | nil => simp [runBackfill]
  | cons city rest => simp [runBackfill, h]

/-- The cities the backfill loop body processes form a prefix of the input
city list, in order. -/
theorem runBackfill_visits_a_front_segment (env : BackfillEnv) (today : Int) :
    ∀ (cities : List String) (b : ApiCallBudget),
      (runBackfill env today b cities).1
        = cities.take (runBackfill env today b cities).1.length := by
  intro cities
  induction cities with
  | nil => intro b; simp [runBackfill]
  | cons city rest ih =>
    intro b
    by_cases h : b.remaining today = 0
    · simp [runBackfill, h]
    · cases hg : env.geocode city with
      | none =>
        rcases hrec : runBackfill env today b rest with ⟨v, a, b2⟩
        have hv : v = rest.take v.length := by
          have := ih b
          rw [hrec] at this
          exact this
        simp [runBackfill, h, hg, hrec, List.take_succ_cons, ← hv]
      | some cityName =>
        cases hm : env.missingDays cityName with
        | none =>
          rcases hrec : runBackfill env today b rest with ⟨v, a, b2⟩
          have hv : v = rest.take v.length := by
            have := ih b
            rw [hrec] at this
            exact this
          simp [runBackfill, h, hg, hm, hrec, List.take_succ_cons, ← hv]
        | some days =>
          cases days with
          | nil =>
            rcases hrec : runBackfill env today b rest with ⟨v, a, b2⟩
            have hv : v = rest.take v.length := by
              have := ih b
              rw [hrec] at this
              exact this
            simp [runBackfill, h, hg, hm, hrec, List.take_succ_cons, ← hv]
          | cons day days =>
            rcases hcity : runCity env today b cityName (day :: days) with ⟨ca, b1⟩
            rcases hrec : runBackfill env today b1 rest with ⟨v, a, b2⟩
            have hv : v = rest.take v.length := by
              have := ih b1
              rw [hrec] at this
              exact this
            simp [runBackfill, h, hg, hm, hcity, hrec, List.take_succ_cons, ← hv]

/-- Every `fetch_day_if_budget` invocation of a run belongs to a city the
loop body processed: its resolved name is the geocoding of some visited
city. -/
theorem runBackfill_attempts_are_for_visited (env : BackfillEnv) (today : Int) :
    ∀ (cities : List String) (b : ApiCallBudget) (a : String × Int × Bool),
      a ∈ (runBackfill env today b cities).2.1 →
      ∃ city ∈ (runBackfill env today b cities).1, env.geocode city = some a.1 := by
  intro cities
  induction cities with
  | nil => intro b a ha; simp [runBackfill] at ha
  | cons city rest ih =>
    intro b a
    by_cases h : b.remaining today = 0
    · intro ha; simp [runBackfill, h] at ha
    · cases hg : env.geocode city with
      | none =>
        rcases hrec : runBackfill env today b rest with ⟨v, at2, b2⟩
        intro ha
        rw [show (runBackfill env today b (city :: rest)) = (city :: v, at2, b2) from by
          simp [runBackfill, h, hg, hrec]] at ha ⊢
        rcases ih b a (by rw [hrec]; exact ha) with ⟨c, hc, hgc⟩
        refine ⟨c, List.mem_cons_of_mem _ ?_, hgc⟩
        rw [hrec] at hc
        exact hc
      | some cityName =>
        cases hm : env.missingDays cityName with
        | none =>
          rcases hrec : runBackfill env today b rest with ⟨v, at2, b2⟩
          intro ha
          rw [show (runBackfill env today b (city :: rest)) = (city :: v, at2, b2) from by
            simp [runBackfill, h, hg, hm, hrec]] at ha ⊢
          rcases ih b a (by rw [hrec]; exact ha) with ⟨c, hc, hgc⟩
          refine ⟨c, List.mem_cons_of_mem _ ?_, hgc⟩
          rw [hrec] at hc
          exact hc
        | some days =>
          cases days with
          | nil =>
            rcases hrec : runBackfill env today b rest with ⟨v, at2, b2⟩
            intro ha
            rw [show (runBackfill env today b (city :: rest)) = (city :: v, at2, b2) from by
              simp [runBackfill, h, hg, hm, hrec]] at ha ⊢
            rcases ih b a (by rw [hrec]; exact ha) with ⟨c, hc, hgc⟩
            refine ⟨c, List.mem_cons_of_mem _ ?_, hgc⟩
            rw [hrec] at hc
            exact hc
          | cons day ds =>
            rcases hcity : runCity env today b cityName (day :: ds) with ⟨ca, b1⟩
            rcases hrec : runBackfill env today b1 rest with ⟨v, at2, b2⟩
            intro ha
            rw [show (runBackfill env today b (city :: rest))
                = (city :: v, ca.map (fun x => (cityName, x)) ++ at2, b2) from by
              simp [runBackfill, h, hg, hm, hcity, hrec]] at ha ⊢
            rcases List.mem_append.mp ha with hin | hin
            · rcases List.mem_map.mp hin with ⟨x, _, hx⟩
              refine ⟨city, List.mem_cons_self .., ?_⟩
              rw [← hx]
              exact hg
            · rcases ih b1 a (by rw [hrec]; exact hin) with ⟨c, hc, hgc⟩
              refine ⟨c, List.mem_cons_of_mem _ ?_, hgc⟩
              rw [hrec] at hc
              exact hc

/-- A run that stops before the end of its city list stops only because
the remaining budget hit zero, and later accesses still see it at zero. -/
theorem runBackfill_early_stop_means_exhausted (env : BackfillEnv) (today : Int) :
    ∀ (cities : List String) (b : ApiCallBudget),
      (runBackfill env today b cities).1.length < cities.length →
      ((runBackfill env today b cities).2.2).remaining today = 0 := by
  intro cities
  induction cities with
  | nil => intro b hlt; simp [runBackfill] at hlt
  | cons city rest ih =>
    intro b
    by_cases h : b.remaining today = 0
    · intro _
      simp only [runBackfill, h, if_pos rfl]
      exact h
    · cases hg : env.geocode city with
      | none =>
        rcases hrec : runBackfill env today b rest with ⟨v, at2, b2⟩
        intro hlt
        rw [show (runBackfill env today b (city :: rest)) = (city :: v, at2, b2) from by
          simp [runBackfill, h, hg, hrec]] at hlt ⊢
        have := ih b (by rw [hrec]; simpa using hlt)
        rw [hrec] at this
        exact this
      | some cityName =>
        cases hm : env.missingDays cityName with
        | none =>
          rcases hrec : runBackfill env today b rest with ⟨v, at2, b2⟩
          intro hlt
          rw [show (runBackfill env today b (city :: rest)) = (city :: v, at2, b2) from by
            simp [runBackfill, h, hg, hm, hrec]] at hlt ⊢
          have := ih b (by rw [hrec]; simpa using hlt)
          rw [hrec] at this
          exact this
        | some days =>
          cases days with
          | nil =>
            rcases hrec : runBackfill env today b rest with ⟨v, at2, b2⟩
            intro hlt
            rw [show (runBackfill env today b (city :: rest)) = (city :: v, at2, b2) from by
              simp [runBackfill, h, hg, hm, hrec]] at hlt ⊢
            have := ih b (by rw [hrec]; simpa using hlt)
            rw [hrec] at this
            exact this
          | cons day ds =>
            rcases hcity : runCity env today b cityName (day :: ds) with ⟨ca, b1⟩
            rcases hrec : runBackfill env today b1 rest with ⟨v, at2, b2⟩
            intro hlt
            rw [show (runBackfill env today b (city :: rest))
                = (city :: v, ca.map (fun x => (cityName, x)) ++ at2, b2) from by
              simp [runBackfill, h, hg, hm, hcity, hrec]] at hlt ⊢
            have := ih b1 (by rw [hrec]; simpa using hlt)
            rw [hrec] at this
            exact this

/-- Once the budget is exhausted the entire run halts: whenever the run
over a front part of the city list ends with zero remaining budget —
whether it stopped early or used its last call on that part's final city —
running over the whole list gives the very same outcome, so the later
cities are never visited and no fetch is attempted for them. -/
theorem runBackfill_halts_once_exhausted (env : BackfillEnv) (today : Int) :
    ∀ (xs ys : List String) (b : ApiCallBudget),
      ((runBackfill env today b xs).2.2).remaining today = 0 →
      runBackfill env today b (xs ++ ys) = runBackfill env today b xs := by
  intro xs
  induction xs with
  | nil =>
    intro ys b hex
    have hb : b.remaining today = 0 := by simpa [runBackfill] using hex
    rw [List.nil_append, runBackfill_stops_when_exhausted env today b ys hb]
    simp [runBackfill]
  | cons city rest ih =>
    intro ys b
    by_cases h : b.remaining today = 0
    · intro _
      rw [List.cons_append, runBackfill_stops_when_exhausted env today b _ h,
        runBackfill_stops_when_exhausted env today b _ h]
    · cases hg : env.geocode city with
      | none =>
        rcases hrec : runBackfill env today b rest with ⟨v, a2, b2⟩
        intro hex
        have hfull : runBackfill env today b (city :: rest) = (city :: v, a2, b2) := by
          simp [runBackfill, h, hg, hrec]
        rw [hfull] at hex
        have htail := ih ys b (by rw [hrec]; exact hex)
        rw [List.cons_append, hfull]
        simp [runBackfill, h, hg, htail, hrec]
      | some cityName =>
        cases hm : env.missingDays cityName with
        | none =>
          rcases hrec : runBackfill env today b rest with ⟨v, a2, b2⟩
          intro hex
          have hfull : runBackfill env today b (city :: rest) = (city :: v, a2, b2) := by
            simp [runBackfill, h, hg, hm, hrec]
          rw [hfull] at hex
          have htail := ih ys b (by rw [hrec]; exact hex)
          rw [List.cons_append, hfull]
          simp [runBackfill, h, hg, hm, htail, hrec]
        | some days =>
          cases days with
          | nil =>
            rcases hrec : runBackfill env today b rest with ⟨v, a2, b2⟩
            intro hex
            have hfull : runBackfill env today b (city :: rest) = (city :: v, a2, b2) := by
              simp [runBackfill, h, hg, hm, hrec]
            rw [hfull] at hex
            have htail := ih ys b (by rw [hrec]; exact hex)
            rw [List.cons_append, hfull]
            simp [runBackfill, h, hg, hm, htail, hrec]
          | cons day ds =>
            rcases hcity : runCity env today b cityName (day :: ds) with ⟨ca, b1⟩
            rcases hrec : runBackfill env today b1 rest with ⟨v, a2, b2⟩
            intro hex
            have hfull : runBackfill env today b (city :: rest)
                = (city :: v, ca.map (fun x => (cityName, x)) ++ a2, b2) := by
              simp [runBackfill, h, hg, hm, hcity, hrec]
            rw [hfull] at hex
            have htail := ih ys b1 (by rw [hrec]; exact hex)
            rw [List.cons_append, hfull]
            simp [runBackfill, h, hg, hm, hcity, htail, hrec]

/-- C4: a backfill run works through `build_city_list`, which is exactly
the spec's priority order (enabled devices' home cities, then their
remaining cities, then enabled jobs' cities, then the fallback list)
deduplicated by first occurrence; the processed cities are a front segment
of that order; every fetch attempt belongs to a processed city; a run that
stops before the end of the order does so with the remaining budget at
zero; a run entered with an exhausted budget processes no city and
attempts no fetch; and once the budget is exhausted the entire run halts —
for any split of the city order, exhaustion by the end of the front part
makes the full run identical to the run on the front part alone, leaving
every later city unvisited with no fetch attempted. -/
theorem backfill_priority_order_and_budget_halt (env : BackfillEnv)
    (today : Int) (b : ApiCallBudget) (devices : List Device)
    (jobs : List ForecastJob) (fallback : List String) :
    build_city_list devices jobs fallback
        = dedupKeepFirst [] (priorityCityList devices jobs fallback) ∧
    (runBackfill env today b (build_city_list devices jobs fallback)).1
        = (build_city_list devices jobs fallback).take
            (runBackfill env today b (build_city_list devices jobs fallback)).1.length ∧
    (∀ a ∈ (runBackfill env today b (build_city_list devices jobs fallback)).2.1,
      ∃ city ∈ (runBackfill env today b (build_city_list devices jobs fallback)).1,
        env.geocode city = some a.1) ∧
    ((runBackfill env today b (build_city_list devices jobs fallback)).1.length
        < (build_city_list devices jobs fallback).length →
      ((runBackfill env today b (build_city_list devices jobs fallback)).2.2).remaining
          today = 0) ∧
    (b.remaining today = 0 →
      runBackfill env today b (build_city_list devices jobs fallback) = ([], [], b)) ∧
    (∀ xs ys, build_city_list devices jobs fallback = xs ++ ys →
      ((runBackfill env today b xs).2.2).remaining today = 0 →
      runBackfill env today b (build_city_list devices jobs fallback)
        = runBackfill env today b xs) :=
  ⟨build_city_list_eq_spec_order devices jobs fallback,
    runBackfill_visits_a_front_segment env today _ b,
    fun a ha => runBackfill_attempts_are_for_visited env today _ b a ha,
    runBackfill_early_stop_means_exhausted env today _ b,
    fun h => runBackfill_stops_when_exhausted env today b _ h,
    fun xs ys hsplit hex => by
      rw [hsplit]
      exact runBackfill_halts_once_exhausted env today xs ys b hex⟩

/-- Witness for C4 with a daily budget of 1 and two cities ("a" and "b")
each needing one fetch: the run processes only "a", attempts only its day,
halts with the budget exhausted before reaching "b", and the full run
coincides with the run on ["a"] alone — city "b" is untouched. -/
theorem backfill_budget_halt_witness :
    build_city_list sampleDevices [] [] = ["a", "b"] ∧
    (runBackfill sampleEnv 0 (ApiCallBudget.new 1 0)
        (build_city_list sampleDevices [] [])).1 = ["a"] ∧
    (runBackfill sampleEnv 0 (ApiCallBudget.new 1 0)
        (build_city_list sampleDevices [] [])).2.1 = [("a", 0, true)] ∧
    (runBackfill sampleEnv 0 (ApiCallBudget.new 1 0)
          (build_city_list sampleDevices [] [])).1.length
        < (build_city_list sampleDevices [] []).length ∧
    ((runBackfill sampleEnv 0 (ApiCallBudget.new 1 0)
        (build_city_list sampleDevices [] [])).2.2).remaining 0 = 0 ∧
    ((runBackfill sampleEnv 0 (ApiCallBudget.new 1 0) ["a"]).2.2).remaining 0 = 0 ∧
    runBackfill sampleEnv 0 (ApiCallBudget.new 1 0) (build_city_list sampleDevices [] [])
        = runBackfill sampleEnv 0 (ApiCallBudget.new 1 0) ["a"] :=
  ⟨by decide, by decide, by decide, by decide,
    (backfill_priority_order_and_budget_halt sampleEnv 0 (ApiCallBudget.new 1 0)
        sampleDevices [] []).2.2.2.1 (by decide),
    by decide,
    (backfill_priority_order_and_budget_halt sampleEnv 0 (ApiCallBudget.new 1 0)
        sampleDevices [] []).2.2.2.2.2 ["a"] ["b"] (by decide) (by decide)⟩

end Weathrs
